import Mathlib

/-!
Shallow embedding of the sales analytics backend
(sales-llm-app/backend), covering the components the specification's
claims are about:

* services/nlsql.py — the NL-to-SQL safety gate (validation and the
  LIMIT-appending of execute_sql), modelled at the level of the exact
  Python string operations (lower, strip, substring test, the token
  scan of re.findall r"[a-z_]+", the regex SQL_PATTERN).
* services/etl.py — dataframe normalisation and chunked ingestion.
* services/stats.py — filter compilation, KPIs, time series with the
  7-row trailing moving average, period delta.
* services/anomalies.py — per (product, region) z-score outliers.
* models/schemas.py — the request validation bounds.

Strings are modelled as lists of characters; the Python string
operations used by the code are defined below with Python's semantics
on the ASCII inputs the code handles.
-/

namespace SalesApp

/-! ## Python string primitives -/

/-- Python whitespace as matched by the regex class backslash-s and by
str.strip() on ASCII text: space, tab, newline, carriage return,
vertical tab (11) and form feed (12). -/
def pySpace (c : Char) : Bool :=
  c == ' ' || c == '\t' || c == '\n' || c == '\r' ||
    c == Char.ofNat 11 || c == Char.ofNat 12

/-- Python str.lower() on the ASCII text the gate handles. -/
def lowerStr (s : List Char) : List Char := s.map Char.toLower

/-- Boolean prefix test on character lists. -/
def prefB : List Char → List Char → Bool
  | [], _ => true
  | _ :: _, [] => false
  | a :: as, b :: bs => a == b && prefB as bs

/-- Python's substring containment test (the `in` operator): the needle
occurs contiguously somewhere in the haystack. -/
def subB (n : List Char) : List Char → Bool
  | [] => prefB n []
  | c :: rest => prefB n (c :: rest) || subB n rest

/-- Python str.strip(): drop leading and trailing whitespace. -/
def stripPy (s : List Char) : List Char :=
  ((s.dropWhile pySpace).reverse.dropWhile pySpace).reverse

/-- Python str.rstrip(sc) for the semicolon: drop every trailing
semicolon. -/
def rstripSemis (s : List Char) : List Char :=
  (s.reverse.dropWhile (fun c => c == ';')).reverse

/-- A character matched by the token regex [a-z_]+ of _is_safe_sql. -/
def isWordChar (c : Char) : Bool :=
  ('a' ≤ c && c ≤ 'z') || c == '_'

/-- Scanner for the token regex: walk the text keeping the current run
of word characters (reversed) in the accumulator, emitting the run when
it ends. -/
def findTokensAux : List Char → List Char → List (List Char)
  | [], acc => if acc.isEmpty then [] else [acc.reverse]
  | c :: rest, acc =>
    if isWordChar c then findTokensAux rest (c :: acc)
    else if acc.isEmpty then findTokensAux rest []
    else acc.reverse :: findTokensAux rest []

/-- re.findall(r"[a-z_]+", s): the maximal runs of word characters, in
order of occurrence. -/
def findTokens (s : List Char) : List (List Char) :=
  findTokensAux s []

/-- Python str.isalpha() on the tokens of the scan (which contain only
lowercase letters and underscores): non-empty and all alphabetic. -/
def pyIsAlphaTok (t : List Char) : Bool :=
  !t.isEmpty && t.all Char.isAlpha

/-! ## services/nlsql.py -/

/-- ALLOWED_KEYWORDS of services/nlsql.py. -/
def allowedKeywords : List (List Char) :=
  ["select", "from", "where", "group", "by", "order", "limit", "asc",
   "desc", "and", "or", "sum", "avg", "count"].map String.toList

/-- ALLOWED_TABLE of services/nlsql.py. -/
def factTable : List Char := "fact_sales".toList

/-- The destructive-keyword substrings _is_safe_sql scans for. -/
def forbiddenWords : List (List Char) :=
  ["drop", "delete", "update", "insert"].map String.toList

/-- _is_safe_sql of services/nlsql.py: lowercase the statement; require
the table name as a substring; reject on any destructive substring;
require every token of the [a-z_]+ scan to be an allowed keyword, the
table name, or not purely alphabetic. -/
def isSafeSql (sql : List Char) : Bool :=
  if !(subB factTable (lowerStr sql)) then false
  else if forbiddenWords.any (fun w => subB w (lowerStr sql)) then false
  else (findTokens (lowerStr sql)).all (fun t =>
    allowedKeywords.contains t || t == factTable || !(pyIsAlphaTok t))

/-- SQL_PATTERN.match of services/nlsql.py: the anchored regex
whitespace*, then "select" case-insensitively, then at least one
whitespace, then at least one further character (DOTALL). A match
exists exactly when, after the leading whitespace, the lowercased text
starts with the six letters of select followed by a whitespace
character and at least one more character. -/
def sqlPatternAccepts (s : List Char) : Bool :=
  let t := lowerStr (s.dropWhile pySpace)
  prefB ("select".toList) t &&
    (match t.drop 6 with
     | c :: _ :: _ => pySpace c
     | _ => false)

/-- generate_sql of services/nlsql.py, with the LLM response text as
input (the llm_provider call is an external collaborator): strip the
response, then raise the unsafe-SQL ValueError unless both the regex
and _is_safe_sql accept; otherwise return the stripped SQL. -/
def generateSql (llmResponse : List Char) : Except String (List Char) :=
  if sqlPatternAccepts (stripPy llmResponse) && isSafeSql (stripPy llmResponse) then
    Except.ok (stripPy llmResponse)
  else Except.error "LLM tarafından üretilen SQL güvenli değil."

/-- Whether generate_sql raises the unsafe-SQL ValueError for a given
(untrimmed) LLM response. -/
def generateSqlRejects (llmResponse : List Char) : Bool :=
  match generateSql llmResponse with
  | Except.ok _ => false
  | Except.error _ => true

/-- The SQL string execute_sql of services/nlsql.py actually executes
and returns: unchanged when the lowercased statement contains the
substring limit, else the statement with trailing semicolons stripped
and a LIMIT clause for the requested limit appended. -/
def limitedSql (sql : List Char) (limit : Int) : List Char :=
  if subB ("limit".toList) (lowerStr sql) then sql
  else rstripSemis sql ++ (" LIMIT ".toList ++ (toString limit).toList)

/-! ## models/schemas.py -/

/-- The limit bound of NLQueryRequest (Field(10, ge=1, le=500)): the
request validation accepts a limit exactly when it is between 1 and
500 inclusive. -/
def nlQueryLimitOk (n : Int) : Bool :=
  decide (1 ≤ n) && decide (n ≤ 500)

/-! ## services/etl.py — data model

A raw cell is modelled by what the pandas parsers make of it:
Cell.null is a missing value (None/NaN, which pd.to_datetime and
pd.to_numeric coerce to NaT/NaN), Cell.date is a value that
pd.to_datetime parses (dates as integer day numbers — the calendar
itself is not re-implemented), Cell.num is a value that pd.to_numeric
parses (numbers as rationals, the idealisation of the floats), and
Cell.text is a non-null value that neither parser accepts. A dataframe
is its column list plus one association list of column name to cell
per row. -/

inductive Cell where
  | null : Cell
  | date : Int → Cell
  | num : ℚ → Cell
  | text : String → Cell
deriving DecidableEq

/-- pd.to_datetime(value, errors="coerce") on one cell: the parsed
date, or none (NaT) for anything unparsable or missing. -/
def pdToDate : Cell → Option Int
  | Cell.date d => some d
  | _ => none

/-- pd.to_numeric(value, errors="coerce") on one cell: the parsed
number, or none (NaN) for anything unparsable or missing. -/
def pdToNum : Cell → Option ℚ
  | Cell.num q => some q
  | _ => none

/-- A raw tabular batch: the uploaded column names and the rows as
association lists keyed by column name. -/
structure RawFrame where
  cols : List String
  rows : List (List (String × Cell))

/-- Column renaming of _normalise_dataframe: col.lower().strip(). -/
def normCol (s : String) : String :=
  String.mk (stripPy (lowerStr s.toList))

/-- Rename every key of a row as the dataframe rename does. -/
def renameRow (r : List (String × Cell)) : List (String × Cell) :=
  r.map (fun p => (normCol p.1, p.2))

/-- Reading df[col] for one row: the cell under the column name, and a
missing key reads as null (the optional columns the code fills with
None are simply absent keys here). -/
def getCell (r : List (String × Cell)) (c : String) : Cell :=
  match r.find? (fun p => p.1 == c) with
  | some p => p.2
  | none => Cell.null

/-- REQUIRED_COLUMNS of services/etl.py, listed alphabetically so that
filtering it for the absent names directly yields the sorted(missing)
the error message joins. -/
def requiredCols : List String :=
  ["category", "date", "order_id", "product", "quantity", "region",
   "sales_amount", "unit_price"]

/-- DEFAULT_CURRENCY of services/etl.py (the DEFAULT_CURRENCY
environment variable is unset in the modelled deployment). -/
def defaultCurrency : String := "EUR"

/-- One normalised fact row, with the canonical column set of the
fact_sales table. Textual columns keep their raw cells; date/quantity/
unit_price/sales_amount hold the parsed values the normaliser
validated. -/
structure FactRow where
  date : Int
  order_id : Cell
  product : Cell
  category : Cell
  region : Cell
  customer : Cell
  salesperson : Cell
  quantity : ℚ
  unit_price : ℚ
  sales_amount : ℚ
  currency : Cell
  source_file : String
  ingestion_id : String
deriving DecidableEq

/-- Build one output row of _normalise_dataframe from one (renamed)
input row, after the column and parse checks have passed: the
sales_amount rewrite (missing or zero becomes quantity * unit_price,
per row), the currency fillna with the default, and the provenance
columns. -/
def buildRow (r : List (String × Cell)) (src ing : String) : FactRow :=
  let q := (pdToNum (getCell r "quantity")).getD 0
  let up := (pdToNum (getCell r "unit_price")).getD 0
  let sa :=
    match pdToNum (getCell r "sales_amount") with
    | none => q * up
    | some v => if v = 0 then q * up else v
  { date := (pdToDate (getCell r "date")).getD 0
    order_id := getCell r "order_id"
    product := getCell r "product"
    category := getCell r "category"
    region := getCell r "region"
    customer := getCell r "customer"
    salesperson := getCell r "salesperson"
    quantity := q
    unit_price := up
    sales_amount := sa
    currency :=
      match getCell r "currency" with
      | Cell.null => Cell.text defaultCurrency
      | c => c
    source_file := src
    ingestion_id := ing }

/-- The _normalise_dataframe of services/etl.py: rename columns, reject
on missing required columns (message lists the sorted missing names),
reject on any unparsable date, reject on any unparsable quantity,
unit_price or sales_amount (in that order, fail-fast for the whole
batch), then emit the canonical rows. Note that a missing (null)
sales_amount is caught by the numeric check — pd.to_numeric turns None
into NaN — so it rejects the batch before the rewrite step can derive
it. -/
def normaliseFrame (df : RawFrame) (src ing : String) : Except String (List FactRow) :=
  let cols := df.cols.map normCol
  let rows := df.rows.map renameRow
  let missing := requiredCols.filter (fun c => !(cols.contains c))
  if !missing.isEmpty then
    Except.error ("Eksik zorunlu kolonlar: " ++ String.intercalate ", " missing)
  else if (rows.map (fun r => pdToDate (getCell r "date"))).any Option.isNone then
    Except.error "Tarih kolonunda hatalı değerler mevcut."
  else if (rows.map (fun r => pdToNum (getCell r "quantity"))).any Option.isNone then
    Except.error "quantity kolonunda sayısal olmayan değerler var."
  else if (rows.map (fun r => pdToNum (getCell r "unit_price"))).any Option.isNone then
    Except.error "unit_price kolonunda sayısal olmayan değerler var."
  else if (rows.map (fun r => pdToNum (getCell r "sales_amount"))).any Option.isNone then
    Except.error "sales_amount kolonunda sayısal olmayan değerler var."
  else
    Except.ok (rows.map (fun r => buildRow r src ing))

/-- Chunk splitter modelling pd.read_csv(path, chunksize=n): the rows
in consecutive chunks of n (pandas requires n at least 1; for n = 0
the definition degenerates to singleton chunks, a case the code never
reaches). rem is the remaining capacity of the chunk being filled,
acc its rows so far in reverse. -/
def chunkAux (n : Nat) : List α → List α → Nat → List (List α)
  | [], acc, _ => if acc.isEmpty then [] else [acc.reverse]
  | x :: xs, acc, rem =>
    if rem ≤ 1 then (x :: acc).reverse :: chunkAux n xs [] n
    else chunkAux n xs (x :: acc) (rem - 1)

/-- Split a row list into chunks of n, in order. -/
def chunkList (n : Nat) (l : List α) : List (List α) :=
  chunkAux n l [] n

/-- The chunk loop of ingest_file: normalise each chunk and INSERT it
into fact_sales before reading the next chunk (there is no enclosing
transaction in the source). The result is the raised ingestion error,
if any, together with the rows this call has committed to the table
when it returns or raises. -/
def ingestChunksGo (src ing : String) :
    List RawFrame → List FactRow → Option String × List FactRow
  | [], acc => (none, acc)
  | c :: rest, acc =>
    match normaliseFrame c src ing with
    | Except.error e => (some e, acc)
    | Except.ok rows => ingestChunksGo src ing rest (acc ++ rows)

/-- ingest_file of services/etl.py for a CSV upload: read the rows in
chunks of chunkSize (every chunk carries the file's column header) and
run the insert loop. -/
def ingestCsv (cols : List String) (rows : List (List (String × Cell)))
    (chunkSize : Nat) (src ing : String) : Option String × List FactRow :=
  ingestChunksGo src ing
    ((chunkList chunkSize rows).map (fun rs => RawFrame.mk cols rs)) []

/-! ## services/stats.py -/

/-- AnalysisFilters after pydantic validation (empty strings have
already been normalised to None by the schema validator). -/
structure Filters where
  start_date : Option Int
  end_date : Option Int
  region : Option String
  category : Option String

/-- The row predicate compiled by _filters_to_sql and _filters_values:
the trivially-true base clause ANDed with the date lower bound, date
upper bound, region equality and category equality, each present only
when the filter field is. -/
def filterKeep (f : Filters) (r : FactRow) : Bool :=
  (match f.start_date with
   | none => true
   | some s => decide (s ≤ r.date)) &&
  (match f.end_date with
   | none => true
   | some e => decide (r.date ≤ e)) &&
  (match f.region with
   | none => true
   | some rg => r.region == Cell.text rg) &&
  (match f.category with
   | none => true
   | some c => r.category == Cell.text c)

/-- SQL SUM over a column: NULL (none) when no rows match, else the
sum. -/
def sqlSumQ (xs : List ℚ) : Option ℚ :=
  match xs with
  | [] => none
  | _ => some xs.sum

/-- KPIResponse of models/schemas.py; the top columns keep the raw
cell of the winning group key. -/
structure KPIResponse where
  total_sales : ℚ
  total_quantity : ℚ
  average_basket : ℚ
  top_product : Option Cell
  top_region : Option Cell
deriving DecidableEq

/-- Fetch-one of GROUP BY key ORDER BY SUM(sales_amount) DESC LIMIT 1:
none when no row matched; ties are broken arbitrarily by the engine,
modelled by keeping the later-listed group on a tie. -/
def pickMaxBySum : List (Cell × ℚ) → Option (Cell × ℚ)
  | [] => none
  | p :: ps =>
    match pickMaxBySum ps with
    | none => some p
    | some q => some (if p.2 > q.2 then p else q)

/-- The grouped sums of sales_amount by one key column over the
filtered rows. -/
def groupSums (key : FactRow → Cell) (m : List FactRow) : List (Cell × ℚ) :=
  (m.map key).dedup.map (fun k =>
    (k, ((m.filter (fun r => key r == k)).map (fun r => r.sales_amount)).sum))

/-- compute_kpis of services/stats.py over the table contents: the
COALESCEd totals, the guarded average basket (0 when total_quantity is
falsy, i.e. zero), and the two top-group fetches. -/
def computeKpis (table : List FactRow) (f : Filters) : KPIResponse :=
  let m := table.filter (filterKeep f)
  let totalSales := (sqlSumQ (m.map (fun r => r.sales_amount))).getD 0
  let totalQty := (sqlSumQ (m.map (fun r => r.quantity))).getD 0
  { total_sales := totalSales
    total_quantity := totalQty
    average_basket := if totalQty = 0 then 0 else totalSales / totalQty
    top_product := (pickMaxBySum (groupSums (fun r => r.product) m)).map Prod.fst
    top_region := (pickMaxBySum (groupSums (fun r => r.region) m)).map Prod.fst }

/-- One record of the trend series of compute_time_series. -/
structure TrendPoint where
  bucket : Int
  total_sales : ℚ
  total_quantity : ℚ
  moving_average : ℚ
deriving DecidableEq

/-- Insert a bucket value into an ascending duplicate-free list,
keeping it ascending and duplicate-free. -/
def insertAsc (b : Int) : List Int → List Int
  | [] => [b]
  | x :: xs =>
    if b < x then b :: x :: xs
    else if b = x then x :: xs
    else x :: insertAsc b xs

/-- The distinct bucket values in ascending order: the GROUP BY plus
ORDER BY bucket of the inner query. -/
def sortedKeys (l : List Int) : List Int :=
  l.foldr insertAsc []

/-- The window frame ROWS BETWEEN 6 PRECEDING AND CURRENT ROW of the
ordered partition, at row index i: the rows at positions i-6 through i
of the bucket-ordered totals, clipped at the partition start. -/
def windowSlice (sales : List ℚ) (i : Nat) : List ℚ :=
  (sales.take (i + 1)).drop (i + 1 - 7)

/-- SQL AVG over the window frame: sum over count. -/
def avgQ (l : List ℚ) : ℚ :=
  l.sum / l.length

/-- The granularity dispatch of compute_time_series: an unrecognized
granularity falls back to day. The three DATE_TRUNC bucket functions
of the black-box SQL engine are passed in as parameters; the claims
hold for every choice of them. -/
def granTrunc (truncDay truncWeek truncMonth : Int → Int) (gran : String) : Int → Int :=
  if gran = "day" then truncDay
  else if gran = "week" then truncWeek
  else if gran = "month" then truncMonth
  else truncDay

/-- compute_time_series of services/stats.py: filter, bucket the dates
with the selected DATE_TRUNC, sum sales_amount and quantity per bucket,
order by bucket ascending, and attach the 7-row trailing window
average of total_sales. -/
def computeTimeSeries (truncDay truncWeek truncMonth : Int → Int) (gran : String)
    (table : List FactRow) (f : Filters) : List TrendPoint :=
  let trunc := granTrunc truncDay truncWeek truncMonth gran
  let m := table.filter (filterKeep f)
  let totals := (sortedKeys (m.map (fun r => trunc r.date))).map (fun b =>
    (b, ((m.filter (fun r => trunc r.date == b)).map (fun r => r.sales_amount)).sum,
        ((m.filter (fun r => trunc r.date == b)).map (fun r => r.quantity)).sum))
  totals.enum.map (fun p =>
    { bucket := p.2.1
      total_sales := p.2.2.1
      total_quantity := p.2.2.2
      moving_average := avgQ (windowSlice (totals.map (fun q => q.2.1)) p.1) })

/-- The binder error of the period-delta query: its final
SELECT current.value, previous.value has no FROM clause, so the
engine's binder cannot resolve the two CTE names. DuckDB follows the
PostgreSQL binder here and adds no missing FROM entry, so
conn.execute rejects the query before reading any data. -/
def periodDeltaBindErr : String :=
  "Binder Error: Referenced table \"current\" not found!"

/-- compute_period_delta of services/stats.py as it actually executes.
The end date is the filter's end date or today's date, resolved by the
caller and passed in here. A non-positive days returns None before the
store is touched. Every positive days builds the two-window CTE query
whose final SELECT lacks a FROM clause and calls conn.execute on it,
which raises the binder error: the relative-change arithmetic and the
falsy-previous-total None guard below that call are unreachable, on
any table contents. -/
def computePeriodDelta (_table : List FactRow) (_endDate : Int) (days : Int) :
    Except String (Option ℚ) :=
  if days ≤ 0 then Except.ok none
  else Except.error periodDeltaBindErr

/-! ## services/anomalies.py

The detector works on the float sales amounts; its mean, population
standard deviation and z-scores are modelled exactly over the reals.
pandas iterates the (product, region) groups in sorted key order;
here the groups are iterated in first-appearance order of their keys,
which can only permute whole groups in the output and is irrelevant
to the per-group claims. -/

/-- One anomaly point (models/schemas.py AnomalyPoint), the textual
keys kept as their raw cells. -/
structure AnomalyPoint where
  product : Cell
  region : Cell
  date : Int
  sales_amount : ℚ
  score : ℝ

/-- The (product, region) group key of an anomaly point. -/
def pointKey (p : AnomalyPoint) : Cell × Cell :=
  (p.product, p.region)

/-- The rows of one (product, region) group of the pandas groupby,
among the filtered rows. -/
def groupOf (table : List FactRow) (f : Filters) (k : Cell × Cell) : List FactRow :=
  (table.filter (filterKeep f)).filter (fun r => (r.product, r.region) == k)

/-- The sales_amount column of one group. -/
def groupAmounts (table : List FactRow) (f : Filters) (k : Cell × Cell) : List ℚ :=
  (groupOf table f k).map (fun r => r.sales_amount)

/-- Mean of a list of amounts, over the reals. -/
noncomputable def meanR (l : List ℚ) : ℝ :=
  (l.map (fun q => (q : ℝ))).sum / l.length

/-- pandas Series.std(ddof=0): the population standard deviation. -/
noncomputable def stdR (l : List ℚ) : ℝ :=
  Real.sqrt ((l.map (fun q => ((q : ℝ) - meanR l) ^ 2)).sum / l.length)

/-- The z-score of one amount within its group. -/
noncomputable def zscore (l : List ℚ) (x : ℚ) : ℝ :=
  ((x : ℝ) - meanR l) / stdR l

/-- The anomaly point emitted for one outlier row, carrying its signed
z-score. -/
noncomputable def mkPoint (amounts : List ℚ) (r : FactRow) : AnomalyPoint :=
  { product := r.product, region := r.region, date := r.date,
    sales_amount := r.sales_amount, score := zscore amounts r.sales_amount }

open scoped Classical in
/-- detect_anomalies of services/anomalies.py: filter the rows, group
them by (product, region), skip any group whose population standard
deviation is zero (the or-0 coercion in the source only renames the
float 0.0 and a non-empty group never yields NaN), and emit one point
with its signed z-score for every row whose absolute z-score reaches
the threshold. -/
noncomputable def detectAnomalies (table : List FactRow) (f : Filters) (t : ℝ) :
    List AnomalyPoint :=
  ((table.filter (filterKeep f)).map (fun r => (r.product, r.region))).dedup.flatMap (fun k =>
    if stdR (groupAmounts table f k) = 0 then []
    else
      ((groupOf table f k).filter (fun r =>
        decide (t ≤ |zscore (groupAmounts table f k) r.sales_amount|))).map
        (mkPoint (groupAmounts table f k)))


/-! ## Concrete inputs used by the example theorems -/

/-- The canonical CSV header of the sample uploads. -/
def csvCols : List String :=
  ["date", "order_id", "product", "category", "region", "quantity",
   "unit_price", "sales_amount"]

/-- A valid raw CSV row with quantity 2, unit_price 10.0 and
sales_amount 0 (the round-trip example of the specification). -/
def rawRowA : List (String × Cell) :=
  [("date", Cell.date 1), ("order_id", Cell.text "A"),
   ("product", Cell.text "Widget"), ("category", Cell.text "Tools"),
   ("region", Cell.text "EMEA"), ("quantity", Cell.num 2),
   ("unit_price", Cell.num 10), ("sales_amount", Cell.num 0)]

/-- A raw CSV row whose date cell parses as no date. -/
def rawRowBadDate : List (String × Cell) :=
  [("date", Cell.text "not-a-date"), ("order_id", Cell.text "B"),
   ("product", Cell.text "Gadget"), ("category", Cell.text "Tools"),
   ("region", Cell.text "EMEA"), ("quantity", Cell.num 3),
   ("unit_price", Cell.num 20), ("sales_amount", Cell.num 60)]

/-- One seeded fact row (the shape of the repository's anomaly test
seed): product Widget, region EMEA, with a given date and sales
amount. -/
def seedRow (d : Int) (amt : ℚ) : FactRow :=
  { date := d, order_id := Cell.text "ORD", product := Cell.text "Widget",
    category := Cell.text "Tools", region := Cell.text "EMEA",
    customer := Cell.null, salesperson := Cell.null,
    quantity := 1, unit_price := 10, sales_amount := amt,
    currency := Cell.text "EUR", source_file := "seed.csv",
    ingestion_id := "seed" }

/-- Nine identical sales of 10.0 plus one outlier of 200.0 in a single
(product, region) group. -/
def anomalySeed : List FactRow :=
  [seedRow 0 10, seedRow 1 10, seedRow 2 10, seedRow 3 10, seedRow 4 10,
   seedRow 5 10, seedRow 6 10, seedRow 7 10, seedRow 8 10, seedRow 9 200]

/-- The all-absent filter. -/
def noFilter : Filters :=
  { start_date := none, end_date := none, region := none, category := none }

/-! ## Theorems -/


/-- Pointwise form of the token check of _is_safe_sql: a token passes
exactly when being purely alphabetic implies it is an allowed keyword
or the table name. -/
theorem token_ok_iff (t : List Char) :
    (allowedKeywords.contains t || t == factTable || !(pyIsAlphaTok t)) = true ↔
      (pyIsAlphaTok t = true → (t ∈ allowedKeywords ∨ t = factTable)) := by
  simp only [Bool.or_eq_true, beq_iff_eq]
  constructor
  · rintro (⟨hc | he⟩ | hn) ha
    · exact Or.inl (by simpa using hc)
    · exact Or.inr he
    · simp [ha] at hn
  · intro h
    by_cases ha : pyIsAlphaTok t = true
    · rcases h ha with hm | he
      · exact Or.inl (Or.inl (by simpa using hm))
      · exact Or.inl (Or.inr he)
    · right
      simpa using ha

/-- The early-return chain of _is_safe_sql as one conjunction. -/
theorem isSafeSql_eq (s : List Char) :
    isSafeSql s =
      (subB factTable (lowerStr s) &&
       !(forbiddenWords.any (fun w => subB w (lowerStr s))) &&
       (findTokens (lowerStr s)).all (fun t =>
         allowedKeywords.contains t || t == factTable || !(pyIsAlphaTok t))) := by
  unfold isSafeSql
  cases subB factTable (lowerStr s) <;>
    cases forbiddenWords.any (fun w => subB w (lowerStr s)) <;> simp

/-- Declarative form of _is_safe_sql: acceptance is exactly the
conjunction of the table-name requirement, the absence of every
destructive substring, and the allow-list condition on the purely
alphabetic tokens. -/
theorem isSafeSql_iff (s : List Char) :
    isSafeSql s = true ↔
      (subB factTable (lowerStr s) = true ∧
       (∀ w ∈ forbiddenWords, subB w (lowerStr s) = false) ∧
       (∀ tok ∈ findTokens (lowerStr s), pyIsAlphaTok tok = true →
          (tok ∈ allowedKeywords ∨ tok = factTable))) := by
  rw [isSafeSql_eq]
  simp only [Bool.and_eq_true, Bool.not_eq_true', List.all_eq_true, and_assoc]
  constructor
  · rintro ⟨hf, hany, hall⟩
    refine ⟨hf, ?_, fun tok ht => (token_ok_iff tok).mp (hall tok ht)⟩
    intro w hw
    cases hv : subB w (lowerStr s)
    · rfl
    · exact absurd
        (show (forbiddenWords.any fun u => subB u (lowerStr s)) = true from
          List.any_eq_true.mpr ⟨w, hw, hv⟩) (by simp [hany])
  · rintro ⟨hf, hnone, hall⟩
    refine ⟨hf, ?_, fun tok ht => (token_ok_iff tok).mpr (hall tok ht)⟩
    cases hv : forbiddenWords.any fun u => subB u (lowerStr s)
    · rfl
    · obtain ⟨w, hw, hsub⟩ := List.any_eq_true.mp hv
      exact absurd hsub (by simp [hnone w hw])


/-- C2: generate_sql raises the unsafe-SQL error (and nothing is
executed) if and only if the trimmed LLM response fails at least one
of: the SELECT-start pattern; the fact_sales substring requirement;
the absence of every destructive substring drop/delete/update/insert;
the allow-list condition on every purely alphabetic token of the
lowercased text. -/
theorem generate_sql_rejects_iff (resp : List Char) :
    generateSqlRejects resp = true ↔
      ¬ (sqlPatternAccepts (stripPy resp) = true ∧
         subB factTable (lowerStr (stripPy resp)) = true ∧
         (∀ w ∈ forbiddenWords, subB w (lowerStr (stripPy resp)) = false) ∧
         (∀ tok ∈ findTokens (lowerStr (stripPy resp)), pyIsAlphaTok tok = true →
            (tok ∈ allowedKeywords ∨ tok = factTable))) := by
  unfold generateSqlRejects generateSql
  cases h : (sqlPatternAccepts (stripPy resp) && isSafeSql (stripPy resp)) with
  | true =>
    have h2 := Bool.and_eq_true _ _ |>.mp h
    have hs := (isSafeSql_iff (stripPy resp)).mp h2.2
    show false = true ↔ _
    constructor
    · intro hx
      exact absurd hx (by simp)
    · intro hn
      exact (hn ⟨h2.1, hs⟩).elim
  | false =>
    show true = true ↔ _
    constructor
    · intro _ hcon
      have : (sqlPatternAccepts (stripPy resp) && isSafeSql (stripPy resp)) = true :=
        Bool.and_eq_true _ _ |>.mpr ⟨hcon.1, (isSafeSql_iff (stripPy resp)).mpr hcon.2⟩
      simp [h] at this
    · intro _
      rfl

/-- C10 (implicit): any token of the [a-z_]+ scan containing an
underscore is exempt from the allow-list check, so a lowercased
statement that contains fact_sales, contains none of the destructive
substrings, and whose purely alphabetic tokens are all allow-listed is
accepted by _is_safe_sql no matter which other underscore-bearing
identifiers it references. -/
theorem is_safe_sql_underscore_exempt (sql : List Char)
    (h1 : subB factTable (lowerStr sql) = true)
    (h2 : ∀ w ∈ forbiddenWords, subB w (lowerStr sql) = false)
    (h3 : ∀ tok ∈ findTokens (lowerStr sql), pyIsAlphaTok tok = true →
      tok ∈ allowedKeywords) :
    isSafeSql sql = true := by
  rw [isSafeSql_iff]
  exact ⟨h1, h2, fun tok ht ha => Or.inl (h3 tok ht ha)⟩

/-- Witness for C10 at a concrete statement that references the
non-allow-listed underscore identifier secret_col: the gate accepts
it. -/
theorem is_safe_sql_underscore_exempt_witness :
    isSafeSql ("select secret_col from fact_sales".toList) = true :=
  is_safe_sql_underscore_exempt ("select secret_col from fact_sales".toList)
    (by decide) (by decide) (by decide)

/-- C1 counterexample: the statement the claim says passes validation,
SELECT region, SUM(sales_amount) FROM fact_sales GROUP BY region, is
in fact rejected by the gate — region is a purely alphabetic token
outside the allow-list. -/
theorem nlsql_gate_example_counterexample :
    generateSqlRejects
      ("SELECT region, SUM(sales_amount) FROM fact_sales GROUP BY region".toList) = true := by
  decide

/-- C1 (amended): DROP TABLE fact_sales is rejected; the spec's sample
SELECT with the bare column name region is also rejected (region is a
purely alphabetic token outside the allow-list); a statement the gate
does accept, SELECT sales_amount FROM fact_sales;, lacks a limit
clause, so execute_sql strips the trailing semicolon, appends LIMIT
with the requested limit, and returns that amended SQL string. -/
theorem nlsql_gate_examples :
    generateSqlRejects ("DROP TABLE fact_sales".toList) = true ∧
    generateSqlRejects
      ("SELECT region, SUM(sales_amount) FROM fact_sales GROUP BY region".toList) = true ∧
    generateSqlRejects ("SELECT sales_amount FROM fact_sales;".toList) = false ∧
    limitedSql ("SELECT sales_amount FROM fact_sales;".toList) 100 =
      ("SELECT sales_amount FROM fact_sales LIMIT 100".toList) :=
  ⟨by decide, by decide, by decide, by decide⟩

/-- C9 counterexample: a request limit of 3 lies outside the claimed
5 to 500 range, yet the schema validation accepts it. -/
theorem nl_query_limit_counterexample :
    nlQueryLimitOk 3 = true ∧ ¬ (5 ≤ (3 : Int)) := by
  decide

/-- C9 (amended): NLQueryRequest accepts a result-row limit exactly in
the range 1 to 500 inclusive (the schema bound is ge=1, not ge=5);
every limit outside that range is rejected by request validation
before any SQL is generated or executed. -/
theorem nl_query_limit_range (n : Int) :
    nlQueryLimitOk n = true ↔ (1 ≤ n ∧ n ≤ 500) := by
  simp [nlQueryLimitOk]

/-- Positional zip of a mapped list with its source pairs every output
element with the input it came from. -/
theorem fst_eq_of_mem_zip_map {α β : Type} (g : α → β) (l : List α)
    (p : β × α) (hp : p ∈ (l.map g).zip l) : p.1 = g p.2 := by
  induction l with
  | nil => cases hp
  | cons a as ih =>
    rcases List.mem_cons.mp hp with hhead | htail
    · rw [hhead]
    · exact ih htail

/-- C3 (code_bug evidence): ingest_file commits each normalised chunk
before reading the next one, with no enclosing transaction. For a
two-row CSV read in chunks of one row whose second row has an
unparsable date, the call raises the date ingestion error and yet the
first chunk's row stays committed to fact_sales — a non-empty prefix
of the batch is persisted, against the zero-rows-committed claim. -/
theorem ingest_partial_commit :
    (ingestCsv csvCols [rawRowA, rawRowBadDate] 1 "sample.csv" "ing1").1 =
      some "Tarih kolonunda hatalı değerler mevcut." ∧
    (ingestCsv csvCols [rawRowA, rawRowBadDate] 1 "sample.csv" "ing1").2 =
      [buildRow (renameRow rawRowA) "sample.csv" "ing1"] ∧
    (ingestCsv csvCols [rawRowA, rawRowBadDate] 1 "sample.csv" "ing1").2 ≠ [] :=
  ⟨rfl, rfl, by decide⟩

/-- C4: for every batch the normaliser accepts, each output row's
sales_amount is quantity * unit_price when the row's input
sales_amount was missing or exactly zero, and is the input
sales_amount unchanged otherwise. -/
theorem normalise_sales_amount_rule (df : RawFrame) (src ing : String)
    (out : List FactRow) (h : normaliseFrame df src ing = Except.ok out) :
    ∀ p ∈ out.zip (df.rows.map renameRow),
      ((pdToNum (getCell p.2 "sales_amount") = none ∨
        pdToNum (getCell p.2 "sales_amount") = some 0) →
        p.1.sales_amount =
          (pdToNum (getCell p.2 "quantity")).getD 0 *
            (pdToNum (getCell p.2 "unit_price")).getD 0) ∧
      (∀ v : ℚ, pdToNum (getCell p.2 "sales_amount") = some v → v ≠ 0 →
        p.1.sales_amount = v) := by
  have hout : out = (df.rows.map renameRow).map (fun r => buildRow r src ing) := by
    simp only [normaliseFrame] at h
    split_ifs at h
    all_goals simp at h
    rw [List.map_map]
    exact h.symm
  subst hout
  intro p hp
  have hfst := fst_eq_of_mem_zip_map (fun r => buildRow r src ing)
    (df.rows.map renameRow) p hp
  rw [hfst]
  unfold buildRow
  constructor
  · rintro (hnone | hzero)
    · simp [hnone]
    · simp [hzero]
  · intro v hv hv0
    simp [hv, hv0]

/-- Witness for C4: ingesting the row with quantity 2, unit_price 10
and sales_amount 0 yields a persisted sales_amount of 20. -/
theorem normalise_sales_amount_rule_witness :
    (buildRow (renameRow rawRowA) "sample.csv" "ing1").sales_amount = 20 := by
  have h := normalise_sales_amount_rule (RawFrame.mk csvCols [rawRowA])
    "sample.csv" "ing1" _ rfl
  have hmem : (buildRow (renameRow rawRowA) "sample.csv" "ing1", renameRow rawRowA) ∈
      (([rawRowA].map renameRow).map
        (fun r => buildRow r "sample.csv" "ing1")).zip ([rawRowA].map renameRow) := by
    simp [List.zip]
  have h2 := (h _ hmem).1 (Or.inr (by decide))
  rw [h2]
  show (2 : ℚ) * 10 = 20
  norm_num

/-- C7: for every filter that matches zero rows, compute_kpis returns
all-zero totals, a zero average basket (the division is guarded by the
truthiness check on total_quantity) and null top product and region,
raising no exception. -/
theorem compute_kpis_empty (table : List FactRow) (f : Filters)
    (h : table.filter (filterKeep f) = []) :
    computeKpis table f =
      { total_sales := 0, total_quantity := 0, average_basket := 0,
        top_product := none, top_region := none } := by
  simp only [computeKpis]
  rw [h]
  simp [sqlSumQ, groupSums, pickMaxBySum]

/-- Witness for C7 at a non-empty table and a region filter matching
no row. -/
theorem compute_kpis_empty_witness :
    computeKpis [seedRow 0 10]
        { start_date := none, end_date := none, region := some "NOWHERE",
          category := none } =
      { total_sales := 0, total_quantity := 0, average_basket := 0,
        top_product := none, top_region := none } :=
  compute_kpis_empty [seedRow 0 10]
    { start_date := none, end_date := none, region := some "NOWHERE",
      category := none } (by decide)

/-- C8 (code_bug evidence): the claim's relative-change and
null-on-zero-baseline paths are unreachable. At a concrete table with
a non-zero previous-window total the call raises the binder error of
its FROM-less final SELECT; the same holds for every table, end date
and positive day count; only a non-positive day count returns None,
before the store is touched. -/
theorem compute_period_delta_raises :
    computePeriodDelta [seedRow 0 10, seedRow 5 30] 6 3 =
      Except.error periodDeltaBindErr ∧
    (∀ (table : List FactRow) (endDate days : Int), 0 < days →
      computePeriodDelta table endDate days = Except.error periodDeltaBindErr) ∧
    (∀ (table : List FactRow) (endDate days : Int), days ≤ 0 →
      computePeriodDelta table endDate days = Except.ok none) := by
  refine ⟨rfl, ?_, ?_⟩
  · intro table endDate days h
    simp only [computePeriodDelta]
    rw [if_neg (by omega : ¬ days ≤ 0)]
  · intro table endDate days h
    simp only [computePeriodDelta]
    rw [if_pos h]


/-- Members of an insertAsc result are the inserted value or old
members. -/
theorem mem_insertAsc {b x : Int} : ∀ {l : List Int}, x ∈ insertAsc b l → x = b ∨ x ∈ l
  | [], hx => by simpa [insertAsc] using hx
  | a :: as, hx => by
    simp only [insertAsc] at hx
    split_ifs at hx with h1 h2
    · rcases List.mem_cons.mp hx with h | h
      · exact Or.inl h
      · exact Or.inr h
    · exact Or.inr hx
    · rcases List.mem_cons.mp hx with h | h
      · exact Or.inr (List.mem_cons.mpr (Or.inl h))
      · rcases mem_insertAsc h with h' | h'
        · exact Or.inl h'
        · exact Or.inr (List.mem_cons.mpr (Or.inr h'))

/-- insertAsc keeps a strictly ascending list strictly ascending. -/
theorem pairwise_insertAsc {b : Int} :
    ∀ {l : List Int}, l.Pairwise (· < ·) → (insertAsc b l).Pairwise (· < ·)
  | [], _ => by simp [insertAsc]
  | a :: as, hl => by
    rcases List.pairwise_cons.mp hl with ⟨ha, has⟩
    simp only [insertAsc]
    split_ifs with h1 h2
    · refine List.pairwise_cons.mpr ⟨?_, hl⟩
      intro y hy
      rcases List.mem_cons.mp hy with rfl | hy'
      · exact h1
      · exact lt_trans h1 (ha y hy')
    · exact hl
    · refine List.pairwise_cons.mpr ⟨?_, pairwise_insertAsc has⟩
      intro y hy
      rcases mem_insertAsc hy with rfl | hy'
      · omega
      · exact ha y hy'

/-- sortedKeys always yields a strictly ascending list. -/
theorem sortedKeys_pairwise (l : List Int) : (sortedKeys l).Pairwise (· < ·) := by
  unfold sortedKeys
  induction l with
  | nil => simp
  | cons a as ih => exact pairwise_insertAsc ih

/-- Bucket projection of the trend series: the ordered bucket keys. -/
theorem series_map_bucket (sales : List ℚ) (totals : List (Int × ℚ × ℚ)) :
    (totals.enum.map (fun p => TrendPoint.mk p.2.1 p.2.2.1 p.2.2.2
      (avgQ (windowSlice sales p.1)))).map (fun q => q.bucket) =
      totals.map (fun t => t.1) := by
  rw [List.map_map]
  rw [show ((fun q : TrendPoint => q.bucket) ∘
      (fun p : Nat × (Int × ℚ × ℚ) => TrendPoint.mk p.2.1 p.2.2.1 p.2.2.2
        (avgQ (windowSlice sales p.1)))) =
      ((fun t : Int × ℚ × ℚ => t.1) ∘ Prod.snd) from rfl]
  rw [← List.map_map, List.enum_map_snd]

/-- Sales projection of the trend series: the per-bucket totals. -/
theorem series_map_sales (sales : List ℚ) (totals : List (Int × ℚ × ℚ)) :
    (totals.enum.map (fun p => TrendPoint.mk p.2.1 p.2.2.1 p.2.2.2
      (avgQ (windowSlice sales p.1)))).map (fun q => q.total_sales) =
      totals.map (fun t => t.2.1) := by
  rw [List.map_map]
  rw [show ((fun q : TrendPoint => q.total_sales) ∘
      (fun p : Nat × (Int × ℚ × ℚ) => TrendPoint.mk p.2.1 p.2.2.1 p.2.2.2
        (avgQ (windowSlice sales p.1)))) =
      ((fun t : Int × ℚ × ℚ => t.2.1) ∘ Prod.snd) from rfl]
  rw [← List.map_map, List.enum_map_snd]

/-- C6: for every filter, every granularity (and every choice of the
engine's three DATE_TRUNC bucket maps), the trend series is strictly
ascending in its bucket column, and the moving_average at position i
is the arithmetic mean of total_sales over positions max(0, i-6)
through i — a trailing window of at most seven buckets, shorter at the
start of the series. -/
theorem time_series_sorted_and_moving_average
    (truncDay truncWeek truncMonth : Int → Int) (gran : String)
    (table : List FactRow) (f : Filters) :
    ((computeTimeSeries truncDay truncWeek truncMonth gran table f).map
        (fun p => p.bucket)).Pairwise (· < ·) ∧
    ∀ i (hi : i < (computeTimeSeries truncDay truncWeek truncMonth gran table f).length),
      ((computeTimeSeries truncDay truncWeek truncMonth gran table f).get ⟨i, hi⟩).moving_average =
        avgQ ((((computeTimeSeries truncDay truncWeek truncMonth gran table f).map
            (fun p => p.total_sales)).drop (i - 6)).take (i + 1 - (i - 6))) := by
  constructor
  · simp only [computeTimeSeries]
    rw [series_map_bucket]
    rw [List.map_map]
    rw [show ((fun t : Int × ℚ × ℚ => t.1) ∘ (fun b : Int =>
        (b, ((List.filter (filterKeep f) table).filter (fun r =>
          granTrunc truncDay truncWeek truncMonth gran r.date == b)).map
            (fun r => r.sales_amount) |>.sum,
          ((List.filter (filterKeep f) table).filter (fun r =>
            granTrunc truncDay truncWeek truncMonth gran r.date == b)).map
              (fun r => r.quantity) |>.sum))) = id from rfl]
    rw [List.map_id]
    exact sortedKeys_pairwise _
  · intro i hi
    simp only [computeTimeSeries] at hi ⊢
    rw [List.get_eq_getElem, List.getElem_map, List.getElem_enum]
    rw [series_map_sales]
    show avgQ (windowSlice _ i) = _
    unfold windowSlice
    rw [List.drop_take]
    rw [show i + 1 - 7 = i - 6 from by omega]


/-- Every point emitted by one group branch of the detector carries
that group's key. -/
theorem pointKey_branch (table : List FactRow) (f : Filters) (t : ℝ)
    (k : Cell × Cell) (p : AnomalyPoint)
    (hp : p ∈ (if stdR (groupAmounts table f k) = 0 then ([] : List AnomalyPoint)
      else ((groupOf table f k).filter (fun r =>
        decide (t ≤ |zscore (groupAmounts table f k) r.sales_amount|))).map
        (mkPoint (groupAmounts table f k)))) :
    pointKey p = k := by
  split_ifs at hp
  · cases hp
  · obtain ⟨r, hr, rfl⟩ := List.mem_map.mp hp
    have hr2 := (List.mem_filter.mp hr).1
    have hkey := (List.mem_filter.mp hr2).2
    have : (r.product, r.region) = k := by simpa using hkey
    simpa [pointKey, mkPoint] using this

/-- Filtering a key-partitioned flatMap by one key selects exactly
that key's branch. -/
theorem filter_flatMap_eq (keys : List (Cell × Cell))
    (F : Cell × Cell → List AnomalyPoint) (k : Cell × Cell)
    (hF : ∀ k' p, p ∈ F k' → pointKey p = k') (hnd : keys.Nodup) :
    (keys.flatMap F).filter (fun p => pointKey p == k) =
      if k ∈ keys then F k else [] := by
  induction keys with
  | nil => simp
  | cons a as ih =>
    rw [List.flatMap_cons, List.filter_append]
    rcases List.nodup_cons.mp hnd with ⟨hna, hnd'⟩
    by_cases hak : a = k
    · subst hak
      rw [List.filter_eq_self.mpr (fun p hp => by simp [hF a p hp])]
      rw [ih hnd', if_neg hna, if_pos (List.mem_cons_self a as), List.append_nil]
    · rw [List.filter_eq_nil_iff.mpr (fun p hp => by simp [hF a p hp, hak]),
        List.nil_append, ih hnd']
      by_cases hk : k ∈ as
      · rw [if_pos hk, if_pos (List.mem_cons.mpr (Or.inr hk))]
      · rw [if_neg hk, if_neg ?_]
        intro hc
        rcases List.mem_cons.mp hc with hc1 | hc2
        · exact hak hc1.symm
        · exact hk hc2

/-- C5: detect_anomalies partitions the filtered rows by
(product, region); a group whose population standard deviation
(ddof=0) is zero contributes no anomaly point; in every other group
exactly the rows whose absolute z-score reaches the threshold are
emitted, each carrying its signed z-score; and for nine rows of 10.0
plus one of 200.0 in one group, exactly the 200.0 row is flagged, with
z-score 3. -/
theorem detect_anomalies_spec :
    (∀ (table : List FactRow) (f : Filters) (t : ℝ) (k : Cell × Cell),
      stdR (groupAmounts table f k) = 0 →
      (detectAnomalies table f t).filter (fun p => pointKey p == k) = []) ∧
    (∀ (table : List FactRow) (f : Filters) (t : ℝ) (k : Cell × Cell),
      k ∈ (table.filter (filterKeep f)).map (fun r => (r.product, r.region)) →
      stdR (groupAmounts table f k) ≠ 0 →
      (detectAnomalies table f t).filter (fun p => pointKey p == k) =
        ((groupOf table f k).filter (fun r =>
          decide (t ≤ |zscore (groupAmounts table f k) r.sales_amount|))).map
          (mkPoint (groupAmounts table f k))) ∧
    detectAnomalies anomalySeed noFilter 2.5 =
      [{ product := Cell.text "Widget", region := Cell.text "EMEA", date := 9,
         sales_amount := 200, score := 3 }] := by
  refine ⟨?_, ?_, ?_⟩
  · intro table f t k hstd
    unfold detectAnomalies
    rw [filter_flatMap_eq _ _ k (fun k' p hp => pointKey_branch table f t k' p hp)
      (List.nodup_dedup _)]
    by_cases hmem : k ∈ ((table.filter (filterKeep f)).map (fun r => (r.product, r.region))).dedup
    · rw [if_pos hmem, if_pos hstd]
    · rw [if_neg hmem]
  · intro table f t k hk hstd
    unfold detectAnomalies
    rw [filter_flatMap_eq _ _ k (fun k' p hp => pointKey_branch table f t k' p hp)
      (List.nodup_dedup _), if_pos (List.mem_dedup.mpr hk), if_neg hstd]
  · unfold detectAnomalies
    have hm : anomalySeed.filter (filterKeep noFilter) = anomalySeed := by decide
    rw [hm]
    have hkeys : (anomalySeed.map (fun r => (r.product, r.region))).dedup =
        [(Cell.text "Widget", Cell.text "EMEA")] := by decide
    rw [hkeys, List.flatMap_cons, List.flatMap_nil, List.append_nil]
    have hga : groupAmounts anomalySeed noFilter (Cell.text "Widget", Cell.text "EMEA") =
        [10, 10, 10, 10, 10, 10, 10, 10, 10, 200] := by decide
    have hgo : groupOf anomalySeed noFilter (Cell.text "Widget", Cell.text "EMEA") =
        anomalySeed := by decide
    rw [hga, hgo]
    have hmean : meanR [10, 10, 10, 10, 10, 10, 10, 10, 10, 200] = 29 := by
      unfold meanR
      norm_num
    have hstd : stdR [10, 10, 10, 10, 10, 10, 10, 10, 10, 200] = 57 := by
      unfold stdR
      rw [hmean]
      norm_num
      rw [show ((3249 : ℝ)) = 57 ^ 2 from by norm_num]
      exact Real.sqrt_sq (by norm_num)
    rw [if_neg (by rw [hstd]; norm_num)]
    have hn10 : ¬ ((2.5 : ℝ) ≤ |zscore [10, 10, 10, 10, 10, 10, 10, 10, 10, 200] (10 : ℚ)|) := by
      unfold zscore
      rw [hmean, hstd]
      push_cast
      rw [not_le, abs_lt]
      constructor <;> norm_num
    have h200 : (2.5 : ℝ) ≤ |zscore [10, 10, 10, 10, 10, 10, 10, 10, 10, 200] (200 : ℚ)| := by
      unfold zscore
      rw [hmean, hstd]
      push_cast
      rw [abs_of_nonneg (by norm_num)]
      norm_num
    have hred10 : ∀ d : Int, (seedRow d (10 : ℚ)).sales_amount = (10 : ℚ) := fun d => rfl
    have hred200 : (seedRow 9 (200 : ℚ)).sales_amount = (200 : ℚ) := rfl
    have hfil : anomalySeed.filter (fun r =>
        decide ((2.5 : ℝ) ≤ |zscore [10, 10, 10, 10, 10, 10, 10, 10, 10, 200] r.sales_amount|)) =
        [seedRow 9 200] := by
      unfold anomalySeed
      simp only [List.filter_cons, List.filter_nil, hred10, hred200,
        decide_eq_false hn10, decide_eq_true h200]
      simp
    rw [hfil]
    simp only [List.map_cons, List.map_nil]
    have hsc : zscore [10, 10, 10, 10, 10, 10, 10, 10, 10, 200] (200 : ℚ) = 3 := by
      unfold zscore
      rw [hmean, hstd]
      push_cast
      norm_num
    simp [mkPoint, seedRow, hsc]

end SalesApp
